import Mathlib

/-!
Verification development for the candlestick-pattern-detector application
(`src/streamlit_app.py`).  The pipeline logic is shallowly embedded:

* a pandas `DataFrame` becomes a timestamp index paired with named columns of
  cell values (`Val`: float, boolean, or raw string cells);
* `load_ohlcv_data` (lines 35-41) becomes an `Except`-valued loader over a raw
  CSV table of string cells, with day-first date parsing and float coercion
  modelled concretely;
* `detect_and_plot` (lines 45-61) becomes a function parametrised by the
  (external) registry predicate and the (external) renderer, returning the
  `(buffer, error)` pair together with the derived marker series and the trace
  of render calls it performed;
* the row-range subsetting `df.iloc[start_row:end_row+1]` (line 103) becomes
  take/drop slicing;
* the session-state block (lines 106-122) becomes a step function on an
  optional chart record, driven by per-cycle events;
* to state copy isolation (line 47) the call is additionally modelled over an
  explicit store of frames, where the predicate may mutate the frame it is
  handed.
-/

set_option autoImplicit false

namespace CandlePD

/-- A single cell of a pandas dataframe/series: a float (modelled as `ℚ`),
a boolean, or an uncoerced raw string. -/
inductive Val where
  | num (q : ℚ)
  | bool (b : Bool)
  | str (s : String)
deriving DecidableEq

/-- A dataframe: a timestamp index (already-parsed date keys) and an ordered
association list of named columns. -/
structure DataFrame where
  index : List Nat
  cols : List (String × List Val)
deriving DecidableEq

/-- A pandas series aligned to a dataframe index; `none` entries model NaN
(undefined) cells, as produced by `Series.where`. -/
structure Series where
  index : List Nat
  vals : List (Option Val)
deriving DecidableEq

/-- Column lookup, `df[name]` / `name in df.columns`: first column with the
given name. -/
def DataFrame.getCol (df : DataFrame) (name : String) : Option (List Val) :=
  (df.cols.find? (fun p => p.1 = name)).map Prod.snd

/-- The list of column names, `df.columns`. -/
def DataFrame.columns (df : DataFrame) : List String :=
  df.cols.map Prod.fst

/-- The copy operation `df.copy()`: an independent frame with the same contents.  In the pure
embedding the copy is content-equal to its source; the store-level model
below is what distinguishes the two objects. -/
def DataFrame.copy (df : DataFrame) : DataFrame :=
  ⟨df.index, df.cols.map (fun p => (p.1, p.2))⟩

/-- A dataframe is well formed when every column has exactly one cell per
index entry. -/
def DataFrame.WF (df : DataFrame) : Prop :=
  ∀ p ∈ df.cols, p.2.length = df.index.length

/-- The column sum `series.sum()`: booleans count as 1/0, floats add up, and a
column containing string cells has no numeric sum (pandas would concatenate;
such a sum never compares equal to 0). -/
def colSum : List Val → Option ℚ
  | [] => some 0
  | Val.num q :: vs =>
    match colSum vs with
    | some s => some (q + s)
    | none => none
  | Val.bool b :: vs =>
    match colSum vs with
    | some s => some ((if b then (1 : ℚ) else 0) + s)
    | none => none
  | Val.str _ :: vs => (fun _ => none) (colSum vs)

/-- Elementwise `cell == True` as pandas evaluates it: a boolean compares by
value, a float compares numerically against 1, a string is never `True`. -/
def eqTrue : Val → Bool
  | Val.bool b => b
  | Val.num q => if q = 1 then true else false
  | Val.str _ => false

/-- The overlay selection `close.where(mask == True)`: keep the close cell where the mask cell is
`True`, undefined elsewhere. -/
def whereTrue (closes mask : List Val) : List (Option Val) :=
  List.zipWith (fun c m => if eqTrue m then some c else none) closes mask

/-- One invocation of the external renderer (`mpf.plot`, lines 54-59): the
frame drawn, the marker overlay, and the chart title. -/
structure RenderCall where
  frame : DataFrame
  marker : Series
  title : String

/-- The observable outcome of `detect_and_plot`: the returned
`(buf, error_msg)` pair, the derived marker series (the `pattern_points`
overlay), and the render calls performed. -/
structure DetectOut where
  buf : Option (List Nat)
  err : Option String
  marker : Option Series
  renders : List RenderCall

/-- The error message of the empty-result branch (lines 50-51). -/
def notFoundMsg : String := "Pattern not found in this dataset."

/-- The detection pipeline `detect_and_plot(df, pattern_name)` (lines 45-61).  `registry` models the
`pattern_functions` dictionary (`.get` lookup), `render` the external
`mpf.plot` producing image bytes.  An unregistered name or a predicate output
lacking a `close` column surfaces as a raised exception (`Except.error`),
exactly where the Python would raise. -/
def detect_and_plot (registry : String → Option (DataFrame → DataFrame))
    (render : DataFrame → Series → String → List Nat)
    (df0 : DataFrame) (pattern_name : String) : Except String DetectOut :=
  match registry pattern_name with
  | none => Except.error "TypeError: NoneType object is not callable"
  | some func =>
    let df := func (DataFrame.copy df0)
    match df.getCol pattern_name with
    | none => Except.ok ⟨none, some notFoundMsg, none, []⟩
    | some col =>
      if colSum col = some 0 then
        Except.ok ⟨none, some notFoundMsg, none, []⟩
      else
        match df.getCol "close" with
        | none => Except.error "KeyError: close"
        | some closes =>
          let marker : Series := ⟨df.index, whereTrue closes col⟩
          Except.ok ⟨some (render df marker pattern_name), none, some marker,
            [⟨df, marker, pattern_name⟩]⟩

/-! ### Ingestion: `load_ohlcv_data` (lines 35-41) -/

/-- Parse a non-empty all-digit string as a natural number. -/
def digitsToNat : List Char → Nat → Option Nat
  | [], acc => some acc
  | c :: cs, acc =>
    if c.isDigit then digitsToNat cs (acc * 10 + (c.toNat - 48)) else none

/-- Parse a non-empty decimal-digit character list. -/
def parseNatChars (cs : List Char) : Option Nat :=
  match cs with
  | [] => none
  | _ => digitsToNat cs 0

/-- Split a character list at every occurrence of a separator character (the
single-character case of string splitting). -/
def splitOnChar (sep : Char) : List Char → List (List Char)
  | [] => [[]]
  | c :: cs =>
    if c = sep then [] :: splitOnChar sep cs
    else
      match splitOnChar sep cs with
      | [] => [[c]]
      | g :: gs => (c :: g) :: gs

/-- An order-preserving key for a calendar date: strictly monotone in
lexicographic (year, month, day) order since `month < 16` and `day < 32`. -/
def dateKey (d m y : Nat) : Nat := y * 512 + m * 32 + d

/-- Day-first date parsing, `pd.to_datetime(cell, dayfirst=True)` on a `d/m/y` string: the first
field is the day of month, the second the month (the day-first convention of
the loader).  Out-of-range fields or other shapes fail to parse. -/
def parseDateDayFirst (s : String) : Option Nat :=
  match splitOnChar '/' s.toList with
  | [ds, ms, ys] =>
    match parseNatChars ds, parseNatChars ms, parseNatChars ys with
    | some d, some m, some y =>
      if 1 ≤ d ∧ d ≤ 31 ∧ 1 ≤ m ∧ m ≤ 12 then some (dateKey d m y) else none
    | _, _, _ => none
  | _ => none

/-- Parse an unsigned decimal literal (`"12"` or `"12.5"`) as a rational. -/
def parseUnsignedDecimal (s : String) : Option ℚ :=
  match splitOnChar '.' s.toList with
  | [ip] => (parseNatChars ip).map (fun n => (n : ℚ))
  | [ip, fp] =>
    match parseNatChars ip, parseNatChars fp with
    | some n, some f => some ((n : ℚ) + (f : ℚ) / ((10 : ℚ) ^ fp.length))
    | _, _ => none
  | _ => none

/-- Float coercion `float(cell)`: a possibly negated decimal literal. -/
def parseFloatStr (s : String) : Option ℚ :=
  match s.toList with
  | '-' :: rest => (parseUnsignedDecimal (String.mk rest)).map (fun q => -q)
  | _ => parseUnsignedDecimal s

/-- Apply a fallible function to every element, failing when any element
fails (the all-or-nothing behaviour of vectorised pandas coercions). -/
def traverseO {α β : Type} (f : α → Option β) : List α → Option (List β)
  | [] => some []
  | a :: as =>
    match f a, traverseO f as with
    | some b, some bs => some (b :: bs)
    | _, _ => none

/-- A raw CSV table as `pd.read_csv` hands it over: a header row and
string-valued data rows. -/
structure RawTable where
  header : List String
  rows : List (List String)

/-- Raw column extraction by header name (first matching header position). -/
def getRawCol (t : RawTable) (name : String) : Option (List String) :=
  (t.header.findIdx? (fun h => h = name)).map
    (fun i => t.rows.map (fun row => row.getD i ""))

/-- The five columns coerced to float by the loader (line 39). -/
def numeric_cols : List String := ["open", "high", "low", "close", "volume"]

/-- Coerce one named column for the loaded frame: the five numeric columns
are parsed as floats (`astype(float)`, line 40), any other column is carried
through as raw strings. -/
def coerceCol (name : String) (raw : List String) : Except String (List Val) :=
  if name ∈ numeric_cols then
    match traverseO parseFloatStr raw with
    | some qs => Except.ok (qs.map Val.num)
    | none => Except.error ("ValueError: could not convert string to float in " ++ name)
  else
    Except.ok (raw.map Val.str)

/-- Build the loaded columns for every non-timestamp header name, in header
order, failing as soon as one coercion fails. -/
def buildCols (t : RawTable) : List String → Except String (List (String × List Val))
  | [] => Except.ok []
  | c :: cs =>
    match getRawCol t c with
    | none => Except.error ("KeyError: " ++ c)
    | some raw =>
      match coerceCol c raw with
      | Except.error e => Except.error e
      | Except.ok vs =>
        match buildCols t cs with
        | Except.error e => Except.error e
        | Except.ok rest => Except.ok ((c, vs) :: rest)

/-- The loader `load_ohlcv_data` (lines 35-41): read the table, parse the `timestamp`
column day-first and make it the index, coerce the five OHLCV columns to
float, keep any extra columns as-is.  Missing columns raise `KeyError`,
uncoercible cells raise `ValueError`; both surface as `Except.error` and no
frame is produced. -/
def load_ohlcv_data (t : RawTable) : Except String DataFrame :=
  match getRawCol t "timestamp" with
  | none => Except.error "KeyError: timestamp"
  | some tsRaw =>
    match traverseO parseDateDayFirst tsRaw with
    | none => Except.error "ValueError: could not parse timestamp"
    | some keys =>
      if ∀ c ∈ numeric_cols, c ∈ t.header then
        match buildCols t (t.header.filter (fun c => ¬ c = "timestamp")) with
        | Except.error e => Except.error e
        | Except.ok cols => Except.ok ⟨keys, cols⟩
      else
        Except.error "KeyError: missing OHLCV column"

/-! ### Row-range subsetting (line 103) -/

/-- Positional slicing `df.iloc[a:b]`: rows with positions `a, ..., b-1`. -/
def DataFrame.iloc (df : DataFrame) (a b : Nat) : DataFrame :=
  ⟨(df.index.drop a).take (b - a),
   df.cols.map (fun p => (p.1, (p.2.drop a).take (b - a)))⟩

/-- The subset `df_subset = df.iloc[start_row:end_row+1]` (line 103): the inclusive
contiguous row range. -/
def df_subset (df : DataFrame) (start_row end_row : Nat) : DataFrame :=
  df.iloc start_row (end_row + 1)

/-! ### Session chart state (lines 106-122) -/

/-- The chart-related session keys, which the code always writes together:
`chart_buffer`, `chart_label`, `chart_file_name`, `chart_download`. -/
structure ChartState where
  buffer : Option (List Nat)
  label : String
  file_name : String
  download : Bool
deriving DecidableEq

/-- One interaction cycle: either the Detect button was pressed and
`detect_and_plot` produced the pair `(buf, error_msg)`, or the script re-ran
for an unrelated reason (a redraw). -/
inductive Event where
  | press (buf : Option (List Nat)) (errorMsg : Option String)
  | redraw
deriving DecidableEq

/-- What one cycle showed the user: the warning, if any, and the chart that
the display block rendered (the stored chart, when present). -/
structure CycleOut where
  warned : Option String
  displayed : Option ChartState
deriving DecidableEq

/-- One run of the script body from line 106 on: on a press with an error
message the state is left alone and the message is shown as a warning
(lines 110-111); on a press without one the four chart keys are overwritten
(lines 113-116); the display block (lines 118-122) then shows the stored
chart whenever one exists. -/
def ui_cycle (pattern_name source_label : String) (s : Option ChartState)
    (ev : Event) : Option ChartState × CycleOut :=
  match ev with
  | Event.redraw => (s, ⟨none, s⟩)
  | Event.press buf errorMsg =>
    match errorMsg with
    | some m => (s, ⟨some m, s⟩)
    | none =>
      let s' : Option ChartState := some
        ⟨buf, pattern_name ++ " Pattern Detected in: " ++ source_label,
         pattern_name ++ "_detected.png", true⟩
      (s', ⟨none, s'⟩)

/-- Run a sequence of interaction cycles from a starting chart state,
collecting what each cycle displayed. -/
def ui_run (pattern_name source_label : String) (s : Option ChartState) :
    List Event → Option ChartState × List CycleOut
  | [] => (s, [])
  | ev :: evs =>
    let (s', out) := ui_cycle pattern_name source_label s ev
    let (sF, outs) := ui_run pattern_name source_label s' evs
    (sF, out :: outs)

/-- An event is a successful detection exactly when the button was pressed
and `detect_and_plot` returned no error message. -/
def Event.isSuccess : Event → Bool
  | Event.press _ none => true
  | _ => false

/-! ### Store-level model of the `df.copy()` call (lines 47-48)

To state copy isolation, dataframe objects live in a store addressed by
references; the registry predicate receives a reference to the frame it is
handed and may mutate that frame and any frame it allocates itself, but no
other. -/

/-- A store of dataframe objects; a reference is a position. -/
structure Store where
  frames : List DataFrame

/-- Dereference. -/
def Store.read (s : Store) (r : Nat) : DataFrame :=
  s.frames.getD r ⟨[], []⟩

/-- Allocate a fresh object holding the given frame. -/
def Store.alloc (s : Store) (d : DataFrame) : Store × Nat :=
  (⟨s.frames ++ [d]⟩, s.frames.length)

/-- A pattern predicate at the store level: handed a reference, it may
update the store (mutating its argument, allocating) and returns the
reference of its result frame. -/
def StoreFunc : Type := Store → Nat → Store × Nat

/-- A predicate is frame-preserving when it leaves every allocated object
other than its argument untouched: it can reach only the object it is handed
and objects it allocates itself. -/
def FramePreserving (f : StoreFunc) : Prop :=
  ∀ s r r', r' < s.frames.length → r' ≠ r → Store.read (f s r).1 r' = Store.read s r'

/-- Lines 47-48 at the store level: `df = df.copy()` allocates a fresh copy
of the caller's frame, `df = func(df)` hands only that copy to the
predicate.  The remaining, read-only part of `detect_and_plot` consumes the
resulting frame; the function returns the updated store and that frame. -/
def detect_copy_then_apply (f : StoreFunc) (s : Store) (dfRef : Nat) :
    Store × DataFrame :=
  let ac := Store.alloc s (DataFrame.copy (Store.read s dfRef))
  let fr := f ac.1 ac.2
  (fr.1, Store.read fr.1 fr.2)

/-! ### Concrete fixtures used to instantiate the theorems -/

/-- A well-formed two-row raw table in the loader's input format. -/
def wTable : RawTable :=
  ⟨["timestamp", "open", "high", "low", "close", "volume"],
   [["01/01/2020", "1", "2", "1", "2", "100"],
    ["02/01/2020", "2", "3", "1", "3", "200"]]⟩

/-- A raw table missing the `volume` column. -/
def wTableNoVolume : RawTable :=
  ⟨["timestamp", "open", "high", "low", "close"],
   [["01/01/2020", "1", "2", "0.5", "1.5"]]⟩

/-- A two-row OHLCV frame. -/
def wDf : DataFrame :=
  ⟨[10, 20],
   [("open", [Val.num 1, Val.num 2]), ("high", [Val.num 2, Val.num 3]),
    ("low", [Val.num 1, Val.num 1]), ("close", [Val.num 2, Val.num 1]),
    ("volume", [Val.num 5, Val.num 6])]⟩

/-- A zero-row OHLCV frame. -/
def wDfEmpty : DataFrame :=
  ⟨[],
   [("open", []), ("high", []), ("low", []), ("close", []), ("volume", [])]⟩

/-- A renderer stand-in returning a fixed byte buffer. -/
def wRender : DataFrame → Series → String → List Nat := fun _ _ _ => [55]

/-- A predicate stand-in flagging the second row. -/
def wPred : DataFrame → DataFrame :=
  fun df => ⟨df.index, df.cols ++ [("Doji", [Val.bool false, Val.bool true])]⟩

/-- A predicate stand-in flagging no row. -/
def wPredMiss : DataFrame → DataFrame :=
  fun df => ⟨df.index, df.cols ++ [("Miss", [Val.bool false, Val.bool false])]⟩

/-- A predicate stand-in augmenting a zero-row frame with an empty boolean
column. -/
def wPredEmpty : DataFrame → DataFrame :=
  fun df => ⟨df.index, df.cols ++ [("Empty", [])]⟩

/-- A registry stand-in with the three predicates above under distinct
names. -/
def wReg : String → Option (DataFrame → DataFrame) :=
  fun n =>
    if n = "Doji" then some wPred
    else if n = "Miss" then some wPredMiss
    else if n = "Empty" then some wPredEmpty
    else none

/-- A store-level predicate that overwrites the frame it is handed. -/
def wStorePred : StoreFunc :=
  fun s r => (⟨s.frames.set r ⟨[0], [("mut", [Val.bool true])]⟩⟩, r)

/-! ### Basic lemmas about the embedding -/

theorem traverseO_length {α β : Type} (f : α → Option β) (l : List α) (bs : List β)
    (h : traverseO f l = some bs) : bs.length = l.length := by
  induction l generalizing bs with
  | nil => simp [traverseO] at h; simp [← h]
  | cons a as ih =>
    unfold traverseO at h
    cases hfa : f a with
    | none => rw [hfa] at h; simp at h
    | some b =>
      rw [hfa] at h
      cases hrest : traverseO f as with
      | none => rw [hrest] at h; simp at h
      | some bs' =>
        rw [hrest] at h
        simp only [Option.some.injEq] at h
        subst h
        simp [ih bs' hrest]

theorem whereTrue_length (closes mask : List Val) :
    (whereTrue closes mask).length = min closes.length mask.length := by
  simp [whereTrue]

theorem whereTrue_getD (closes mask : List Val) (i : Nat)
    (h1 : i < closes.length) (h2 : i < mask.length) :
    (whereTrue closes mask).getD i none =
      if eqTrue (mask.getD i (Val.str "")) then some (closes.getD i (Val.str ""))
      else none := by
  have hlen : i < (whereTrue closes mask).length := by
    rw [whereTrue_length]; exact lt_min h1 h2
  rw [List.getD_eq_getElem _ _ hlen, List.getD_eq_getElem _ _ h1,
    List.getD_eq_getElem _ _ h2]
  simp [whereTrue]

theorem colSum_bool (col : List Val) (hb : ∀ v ∈ col, ∃ b, v = Val.bool b) :
    colSum col = some ((col.countP (fun v => v = Val.bool true) : ℚ)) := by
  induction col with
  | nil => simp [colSum]
  | cons v vs ih =>
    obtain ⟨b, rfl⟩ := hb v (List.mem_cons_self _ _)
    have ih' := ih (fun w hw => hb w (List.mem_cons_of_mem _ hw))
    cases b <;> simp [colSum, ih', List.countP_cons, add_comm]

theorem getCol_eq_none_iff (df : DataFrame) (name : String) :
    df.getCol name = none ↔ name ∉ df.columns := by
  unfold DataFrame.getCol DataFrame.columns
  rw [Option.map_eq_none', List.find?_eq_none]
  constructor
  · intro h hmem
    obtain ⟨p, hp, hfst⟩ := List.mem_map.mp hmem
    exact absurd (by simpa using hfst) (by simpa using h p hp)
  · intro h p hp
    intro hfst
    exact h (List.mem_map.mpr ⟨p, hp, by simpa using hfst⟩)

theorem getCol_append_single (idx : List Nat) (cols : List (String × List Val))
    (n : String) (bs : List Val) (h : n ∉ cols.map Prod.fst) :
    DataFrame.getCol ⟨idx, cols ++ [(n, bs)]⟩ n = some bs := by
  induction cols with
  | nil => simp [DataFrame.getCol, List.find?]
  | cons p ps ih =>
    have hne : ¬ p.1 = n := by
      intro he; exact h (by simp [he])
    have h' : n ∉ ps.map Prod.fst := fun hm => h (by simp [hm])
    unfold DataFrame.getCol at ih ⊢
    simp only [List.cons_append, List.find?]
    rw [show (decide (p.1 = n)) = false by simpa using hne]
    exact ih h'

theorem getRawCol_length (t : RawTable) (c : String) (raw : List String)
    (h : getRawCol t c = some raw) : raw.length = t.rows.length := by
  unfold getRawCol at h
  cases hi : t.header.findIdx? (fun x => x = c) with
  | none => rw [hi] at h; simp at h
  | some i =>
    rw [hi] at h
    simp only [Option.map_some', Option.some.injEq] at h
    simp [← h]

theorem getRawCol_eq_none_iff (t : RawTable) (c : String) :
    getRawCol t c = none ↔ c ∉ t.header := by
  unfold getRawCol
  rw [Option.map_eq_none', List.findIdx?_eq_none_iff]
  constructor
  · intro h hc
    simpa using h c hc
  · intro h x hx
    by_cases hxc : x = c
    · exact absurd (hxc ▸ hx) h
    · simp [hxc]

theorem find_map_slice (cols : List (String × List Val)) (c : String)
    (g : List Val → List Val) :
    (cols.map (fun p => (p.1, g p.2))).find? (fun p => p.1 = c) =
      (cols.find? (fun p => p.1 = c)).map (fun p => (p.1, g p.2)) := by
  induction cols with
  | nil => simp
  | cons p ps ih =>
    by_cases hp : p.1 = c
    · simp [List.find?, hp]
    · simp only [List.map_cons, List.find?]
      rw [show (decide (p.1 = c)) = false by simpa using hp]
      simpa using ih

theorem getCol_iloc (df : DataFrame) (a b : Nat) (c : String) :
    (df.iloc a b).getCol c = (df.getCol c).map (fun vs => (vs.drop a).take (b - a)) := by
  unfold DataFrame.iloc DataFrame.getCol
  dsimp only
  rw [find_map_slice df.cols c (fun vs => (vs.drop a).take (b - a))]
  cases df.cols.find? (fun p => p.1 = c) <;> simp

theorem getCol_length (df : DataFrame) (hwf : df.WF) (c : String) (vs : List Val)
    (h : df.getCol c = some vs) : vs.length = df.index.length := by
  unfold DataFrame.getCol at h
  cases hf : df.cols.find? (fun p => p.1 = c) with
  | none => rw [hf] at h; simp at h
  | some p =>
    rw [hf] at h
    simp only [Option.map_some', Option.some.injEq] at h
    rw [← h]
    exact hwf p (List.mem_of_find?_eq_some hf)

theorem slice_length {α : Type} (l : List α) (a b : Nat) (hab : a ≤ b)
    (hb : b < l.length) : ((l.drop a).take (b - a + 1)).length = b - a + 1 := by
  simp only [List.length_take, List.length_drop]
  omega

theorem slice_getD {α : Type} (l : List α) (a b i : Nat) (d : α) (hab : a ≤ b)
    (hb : b < l.length) (hi : i ≤ b - a) :
    ((l.drop a).take (b - a + 1)).getD i d = l.getD (a + i) d := by
  have h1 : i < ((l.drop a).take (b - a + 1)).length := by
    rw [slice_length l a b hab hb]; omega
  have h2 : a + i < l.length := by omega
  have h3 : i < (l.drop a).length := by simp [List.length_drop]; omega
  rw [List.getD_eq_getElem _ _ h1, List.getD_eq_getElem _ _ h2]
  rw [List.getElem_take, List.getElem_drop]

theorem take_one_drop {α : Type} (l : List α) (k : Nat) (d : α) (hk : k < l.length) :
    (l.drop k).take 1 = [l.getD k d] := by
  rw [← List.getElem_cons_drop l k hk, List.getD_eq_getElem _ _ hk]
  rfl

theorem getD_set_ne {α : Type} (l : List α) (i j : Nat) (v d : α) (h : j ≠ i) :
    (l.set i v).getD j d = l.getD j d := by
  rw [List.getD_eq_getElem?_getD, List.getD_eq_getElem?_getD,
    List.getElem?_set_ne (Ne.symm h)]

theorem getRawCol_isSome (t : RawTable) (c : String) (hc : c ∈ t.header) :
    ∃ raw, getRawCol t c = some raw := by
  cases hr : getRawCol t c with
  | none => exact absurd hc ((getRawCol_eq_none_iff t c).mp hr)
  | some raw => exact ⟨raw, rfl⟩

theorem buildCols_ok (t : RawTable) (ns : List String)
    (h : ∀ c ∈ ns, ∃ raw vs, getRawCol t c = some raw ∧
      coerceCol c raw = Except.ok vs) :
    ∃ cols, buildCols t ns = Except.ok cols := by
  induction ns with
  | nil => exact ⟨[], rfl⟩
  | cons n rest ih =>
    obtain ⟨raw, vs, hraw, hvs⟩ := h n (List.mem_cons_self _ _)
    obtain ⟨cols', hcols'⟩ := ih (fun c hc => h c (List.mem_cons_of_mem _ hc))
    refine ⟨(n, vs) :: cols', ?_⟩
    unfold buildCols
    simp only [hraw, hvs, hcols']

theorem buildCols_getCol (t : RawTable) (ns : List String)
    (cols : List (String × List Val)) (keys : List Nat)
    (hok : buildCols t ns = Except.ok cols) (c : String) (hc : c ∈ ns) :
    ∃ raw vs, getRawCol t c = some raw ∧ coerceCol c raw = Except.ok vs ∧
      DataFrame.getCol ⟨keys, cols⟩ c = some vs := by
  induction ns generalizing cols with
  | nil => exact absurd hc (List.not_mem_nil _)
  | cons n rest ih =>
    unfold buildCols at hok
    cases hraw : getRawCol t n with
    | none =>
      simp only [hraw] at hok
      exact Except.noConfusion hok
    | some raw =>
      simp only [hraw] at hok
      cases hco : coerceCol n raw with
      | error e =>
        simp only [hco] at hok
        exact Except.noConfusion hok
      | ok vs =>
        simp only [hco] at hok
        cases hrest : buildCols t rest with
        | error e =>
          simp only [hrest] at hok
          exact Except.noConfusion hok
        | ok cols' =>
          simp only [hrest, Except.ok.injEq] at hok
          subst hok
          by_cases hcn : c = n
          · subst hcn
            refine ⟨raw, vs, hraw, hco, ?_⟩
            unfold DataFrame.getCol
            simp [List.find?]
          · have hcr : c ∈ rest := by
              cases List.mem_cons.mp hc with
              | inl h => exact absurd h hcn
              | inr h => exact h
            obtain ⟨raw', vs', h1, h2, h3⟩ := ih cols' hrest hcr
            refine ⟨raw', vs', h1, h2, ?_⟩
            unfold DataFrame.getCol at h3 ⊢
            simp only [List.find?]
            rw [show (decide (n = c)) = false by simpa using fun he => hcn he.symm]
            exact h3

theorem buildCols_error (t : RawTable) (ns : List String) (c : String) (hc : c ∈ ns)
    (raw : List String) (hraw : getRawCol t c = some raw) (e : String)
    (herr : coerceCol c raw = Except.error e) :
    ∃ msg, buildCols t ns = Except.error msg := by
  induction ns with
  | nil => exact absurd hc (List.not_mem_nil _)
  | cons n rest ih =>
    unfold buildCols
    cases hrawn : getRawCol t n with
    | none => exact ⟨"KeyError: " ++ n, by simp only [hrawn]⟩
    | some rawn =>
      cases hcon : coerceCol n rawn with
      | error e' => exact ⟨e', by simp only [hrawn, hcon]⟩
      | ok vs =>
        by_cases hcn : c = n
        · subst hcn
          rw [hraw] at hrawn
          cases hrawn
          rw [herr] at hcon
          cases hcon
        · have hcr : c ∈ rest := by
            cases List.mem_cons.mp hc with
            | inl h => exact absurd h hcn
            | inr h => exact h
          obtain ⟨msg, hmsg⟩ := ih hcr
          exact ⟨msg, by simp only [hrawn, hcon, hmsg]⟩

/-! ### Claim theorems -/

/-- C2: for every series and registered pattern name, if after invoking the
registry predicate the boolean column named after the pattern is absent, or no
row has that column true (its sum is 0), `detect_and_plot` returns the pair
`(None, "Pattern not found in this dataset.")` and performs no render call
(the render trace is empty). -/
theorem detect_empty_result_contract
    (registry : String → Option (DataFrame → DataFrame))
    (render : DataFrame → Series → String → List Nat) (df0 : DataFrame)
    (name : String) (func : DataFrame → DataFrame)
    (hreg : registry name = some func)
    (hnf : (func (DataFrame.copy df0)).getCol name = none ∨
      ∃ col, (func (DataFrame.copy df0)).getCol name = some col ∧
        colSum col = some 0) :
    detect_and_plot registry render df0 name =
      Except.ok ⟨none, some notFoundMsg, none, []⟩ := by
  unfold detect_and_plot
  rw [hreg]
  dsimp only
  rcases hnf with h | ⟨col, hcol, hsum⟩
  · simp only [h]
  · simp [hcol, hsum]

/-- Witness for C2: a registered predicate that flags zero rows on a concrete
two-row frame. -/
theorem detect_empty_result_contract_witness :
    detect_and_plot wReg wRender wDf "Miss" =
      Except.ok ⟨none, some notFoundMsg, none, []⟩ :=
  detect_empty_result_contract wReg wRender wDf "Miss" wPredMiss (by rfl)
    (Or.inr ⟨[Val.bool false, Val.bool false], by decide, by simp [colSum]⟩)

/-- C7: for every series and registered pattern name (with the predicate
output retaining a `close` column, per the registry contract),
`detect_and_plot` returns exactly one of the two shapes: an image byte buffer
with no error, or no buffer with a human-readable reason — never both and
never neither. -/
theorem detect_result_exclusive
    (registry : String → Option (DataFrame → DataFrame))
    (render : DataFrame → Series → String → List Nat) (df0 : DataFrame)
    (name : String) (func : DataFrame → DataFrame) (closes : List Val)
    (hreg : registry name = some func)
    (hclose : (func (DataFrame.copy df0)).getCol "close" = some closes) :
    ∃ out, detect_and_plot registry render df0 name = Except.ok out ∧
      (out.buf.isSome = true ↔ out.err = none) ∧
      (out.err = none ∨ out.err = some notFoundMsg) := by
  unfold detect_and_plot
  rw [hreg]
  dsimp only
  cases hcol : (func (DataFrame.copy df0)).getCol name with
  | none => exact ⟨_, rfl, by simp, Or.inr rfl⟩
  | some col =>
    dsimp only
    by_cases hsum : colSum col = some 0
    · rw [if_pos hsum]
      exact ⟨_, rfl, by simp, Or.inr rfl⟩
    · rw [if_neg hsum, hclose]
      exact ⟨_, rfl, by simp, Or.inl rfl⟩

/-- Witness for C7: the exclusivity instantiated on a concrete frame and
registered predicate. -/
theorem detect_result_exclusive_witness :
    ∃ out, detect_and_plot wReg wRender wDf "Doji" = Except.ok out ∧
      (out.buf.isSome = true ↔ out.err = none) ∧
      (out.err = none ∨ out.err = some notFoundMsg) :=
  detect_result_exclusive wReg wRender wDf "Doji" wPred
    [Val.num 2, Val.num 1] (by rfl) (by decide)

/-- C9: invoked on a series with zero rows, with the predicate modelled as
returning the same rows augmented with the (empty) boolean column, detection
is total: it returns the pattern-not-found outcome rather than raising. -/
theorem detect_empty_series_total
    (registry : String → Option (DataFrame → DataFrame))
    (render : DataFrame → Series → String → List Nat) (df0 : DataFrame)
    (name : String) (func : DataFrame → DataFrame) (bs : List Val)
    (hreg : registry name = some func)
    (hempty : df0.index = [])
    (hfunc : func (DataFrame.copy df0) = ⟨df0.index, df0.cols ++ [(name, bs)]⟩)
    (hbs : bs.length = df0.index.length)
    (hnot : name ∉ df0.columns) :
    detect_and_plot registry render df0 name =
      Except.ok ⟨none, some notFoundMsg, none, []⟩ := by
  have hbsnil : bs = [] := List.length_eq_zero.mp (by rw [hbs, hempty]; rfl)
  subst hbsnil
  unfold detect_and_plot
  rw [hreg]
  dsimp only
  rw [hfunc, getCol_append_single _ _ _ _ (by simpa [DataFrame.columns] using hnot)]
  simp [colSum]

/-- Witness for C9: detection on a concrete zero-row frame. -/
theorem detect_empty_series_total_witness :
    detect_and_plot wReg wRender wDfEmpty "Empty" =
      Except.ok ⟨none, some notFoundMsg, none, []⟩ :=
  detect_empty_series_total wReg wRender wDfEmpty "Empty" wPredEmpty []
    (by rfl) (by rfl) (by decide) (by rfl) (by decide)

/-- C1: on every series where detection succeeds, the marker series shares
the index of the evaluated series, and row by row it is defined exactly where
the pattern's boolean column is true, with the defined value equal to that
row's close price. -/
theorem marker_alignment
    (registry : String → Option (DataFrame → DataFrame))
    (render : DataFrame → Series → String → List Nat) (df0 : DataFrame)
    (name : String) (func : DataFrame → DataFrame) (col closes : List Val)
    (hreg : registry name = some func)
    (hcol : (func (DataFrame.copy df0)).getCol name = some col)
    (hsum : colSum col ≠ some 0)
    (hclose : (func (DataFrame.copy df0)).getCol "close" = some closes)
    (hbool : ∀ v ∈ col, ∃ b, v = Val.bool b)
    (hlen : closes.length = col.length) :
    ∃ out marker, detect_and_plot registry render df0 name = Except.ok out ∧
      out.err = none ∧ out.marker = some marker ∧
      marker.index = (func (DataFrame.copy df0)).index ∧
      marker.vals.length = col.length ∧
      (∀ i, i < col.length → ∃ b, col.getD i (Val.str "") = Val.bool b ∧
        marker.vals.getD i none =
          if b then some (closes.getD i (Val.str "")) else none) := by
  unfold detect_and_plot
  rw [hreg]
  dsimp only
  rw [hcol]
  dsimp only
  rw [if_neg hsum, hclose]
  refine ⟨_, ⟨(func (DataFrame.copy df0)).index, whereTrue closes col⟩,
    rfl, rfl, rfl, rfl, ?_, ?_⟩
  · dsimp only
    rw [whereTrue_length, hlen, Nat.min_self]
  · intro i hi
    have hic : i < closes.length := by omega
    have hmem : col.getD i (Val.str "") ∈ col := by
      rw [List.getD_eq_getElem _ _ hi]
      exact List.getElem_mem hi
    obtain ⟨b, hb⟩ := hbool _ hmem
    refine ⟨b, hb, ?_⟩
    dsimp only
    rw [whereTrue_getD closes col i hic hi, hb]
    cases b <;> simp [eqTrue]

/-- Witness for C1: a concrete detection where the second row fires and the
marker picks up that row's close price. -/
theorem marker_alignment_witness :
    ∃ out marker, detect_and_plot wReg wRender wDf "Doji" = Except.ok out ∧
      out.err = none ∧ out.marker = some marker ∧
      marker.index = (wPred (DataFrame.copy wDf)).index ∧
      marker.vals.length = ([Val.bool false, Val.bool true] : List Val).length ∧
      (∀ i, i < ([Val.bool false, Val.bool true] : List Val).length →
        ∃ b, ([Val.bool false, Val.bool true] : List Val).getD i (Val.str "") = Val.bool b ∧
          marker.vals.getD i none =
            if b then some (([Val.num 2, Val.num 1] : List Val).getD i (Val.str ""))
            else none) :=
  marker_alignment wReg wRender wDf "Doji" wPred
    [Val.bool false, Val.bool true] [Val.num 2, Val.num 1]
    (by rfl) (by decide) (by simp [colSum]) (by decide)
    (by intro v hv; rcases List.mem_cons.mp hv with h | h
        · exact ⟨false, h⟩
        · exact ⟨true, by simpa using h⟩)
    (by decide)

/-- C10: whenever `detect_and_plot` returns with no error message (the
success branch), the marker series it produced has at least one defined
point: the nonzero-sum guard guarantees some row fired. -/
theorem success_marker_nonempty
    (registry : String → Option (DataFrame → DataFrame))
    (render : DataFrame → Series → String → List Nat) (df0 : DataFrame)
    (name : String) (func : DataFrame → DataFrame) (col closes : List Val)
    (out : DetectOut)
    (hreg : registry name = some func)
    (hcol : (func (DataFrame.copy df0)).getCol name = some col)
    (hbool : ∀ v ∈ col, ∃ b, v = Val.bool b)
    (hclose : (func (DataFrame.copy df0)).getCol "close" = some closes)
    (hlen : closes.length = col.length)
    (hok : detect_and_plot registry render df0 name = Except.ok out)
    (herr : out.err = none) :
    ∃ marker, out.marker = some marker ∧ ∃ v ∈ marker.vals, v.isSome = true := by
  unfold detect_and_plot at hok
  rw [hreg] at hok
  dsimp only at hok
  rw [hcol] at hok
  dsimp only at hok
  by_cases hsum : colSum col = some 0
  · rw [if_pos hsum] at hok
    simp only [Except.ok.injEq] at hok
    rw [← hok] at herr
    exact absurd herr (by simp)
  · rw [if_neg hsum, hclose] at hok
    simp only [Except.ok.injEq] at hok
    subst hok
    refine ⟨_, rfl, ?_⟩
    have hcnt : col.countP (fun v => v = Val.bool true) ≠ 0 := by
      intro h0
      exact hsum (by rw [colSum_bool col hbool, h0]; norm_num)
    obtain ⟨a, ha, hatrue⟩ := List.countP_pos_iff.mp (Nat.pos_of_ne_zero hcnt)
    obtain ⟨i, hilt, hieq⟩ := List.mem_iff_getElem.mp ha
    have hatrue' : a = Val.bool true := by simpa using hatrue
    have hic : i < closes.length := by omega
    have hiw : i < (whereTrue closes col).length := by
      rw [whereTrue_length]
      exact lt_min hic hilt
    refine ⟨(whereTrue closes col)[i], List.getElem_mem hiw, ?_⟩
    have := whereTrue_getD closes col i hic hilt
    rw [List.getD_eq_getElem _ _ hiw] at this
    rw [this, List.getD_eq_getElem _ _ hilt, hieq, hatrue']
    simp [eqTrue]

/-- Witness for C10: the concrete successful detection has a defined marker
point. -/
theorem success_marker_nonempty_witness :
    ∃ marker,
      (DetectOut.mk (some [55]) none
        (some ⟨[10, 20], [none, some (Val.num 1)]⟩)
        [⟨wPred (DataFrame.copy wDf), ⟨[10, 20], [none, some (Val.num 1)]⟩,
          "Doji"⟩]).marker = some marker ∧
      ∃ v ∈ marker.vals, v.isSome = true :=
  success_marker_nonempty wReg wRender wDf "Doji" wPred
    [Val.bool false, Val.bool true] [Val.num 2, Val.num 1] _
    (by rfl) (by decide)
    (by intro v hv; rcases List.mem_cons.mp hv with h | h
        · exact ⟨false, h⟩
        · exact ⟨true, by simpa using h⟩)
    (by decide) (by decide)
    (by unfold detect_and_plot wReg wPred wRender
        simp [DataFrame.getCol, DataFrame.copy, List.find?, colSum, whereTrue,
          eqTrue, wDf])
    (by rfl)

/-- C3: at the store level, after the `df = df.copy(); df = func(df)` prefix
of `detect_and_plot` runs — with the predicate free to mutate the frame it is
handed and any frame it allocates, but no other — the caller's original frame
object is unchanged: same frame, hence no added column and no mutated cell. -/
theorem copy_isolation (f : StoreFunc) (s : Store) (dfRef : Nat)
    (hf : FramePreserving f) (hr : dfRef < s.frames.length) :
    Store.read (detect_copy_then_apply f s dfRef).1 dfRef = Store.read s dfRef ∧
    (Store.read (detect_copy_then_apply f s dfRef).1 dfRef).columns =
      (Store.read s dfRef).columns := by
  have hmain :
      Store.read (detect_copy_then_apply f s dfRef).1 dfRef = Store.read s dfRef := by
    unfold detect_copy_then_apply Store.alloc
    dsimp only
    have h1 : Store.read ⟨s.frames ++ [DataFrame.copy (Store.read s dfRef)]⟩ dfRef =
        Store.read s dfRef := by
      unfold Store.read
      exact List.getD_append _ _ _ _ hr
    have h2 := hf ⟨s.frames ++ [DataFrame.copy (Store.read s dfRef)]⟩
      s.frames.length dfRef (by simpa using Nat.lt_succ_of_lt hr) (Nat.ne_of_lt hr)
    rw [h2, h1]
  exact ⟨hmain, by rw [hmain]⟩

/-- Witness for C3: a predicate that overwrites the frame it is handed,
applied over a one-frame store; the caller's frame is untouched. -/
theorem copy_isolation_witness :
    Store.read (detect_copy_then_apply wStorePred ⟨[wDf]⟩ 0).1 0 =
      Store.read ⟨[wDf]⟩ 0 ∧
    (Store.read (detect_copy_then_apply wStorePred ⟨[wDf]⟩ 0).1 0).columns =
      (Store.read ⟨[wDf]⟩ 0).columns :=
  copy_isolation wStorePred ⟨[wDf]⟩ 0
    (by
      intro s r r' hlt hne
      unfold wStorePred Store.read
      dsimp only
      exact getD_set_ne _ _ _ _ _ hne)
    (by decide)

/-- C8: the stored chart state is overwritten only by a successful detection:
a press that came back with an error message leaves the state unchanged and
only warns, while the stored chart keeps being displayed on every cycle of a
run containing no successful detection. -/
theorem session_chart_persistence (pattern_name source_label : String) :
    (∀ s buf, ui_cycle pattern_name source_label s (Event.press buf none) =
      (some ⟨buf, pattern_name ++ " Pattern Detected in: " ++ source_label,
        pattern_name ++ "_detected.png", true⟩,
       ⟨none, some ⟨buf, pattern_name ++ " Pattern Detected in: " ++ source_label,
        pattern_name ++ "_detected.png", true⟩⟩)) ∧
    (∀ s buf m, ui_cycle pattern_name source_label s (Event.press buf (some m)) =
      (s, ⟨some m, s⟩)) ∧
    (∀ s evs, (∀ ev ∈ evs, ev.isSuccess = false) →
      (ui_run pattern_name source_label s evs).1 = s ∧
      ∀ o ∈ (ui_run pattern_name source_label s evs).2, o.displayed = s) := by
  refine ⟨fun s buf => rfl, fun s buf m => rfl, ?_⟩
  intro s evs hnos
  induction evs with
  | nil => exact ⟨rfl, by intro o ho; simp [ui_run] at ho⟩
  | cons ev rest ih =>
    have hev := hnos ev (List.mem_cons_self _ _)
    have hcyc : ui_cycle pattern_name source_label s ev = (s, ⟨?warn, s⟩) := ?_
    case warn => exact (match ev with
      | Event.press _ (some m) => some m
      | _ => none)
    · obtain ⟨h1, h2⟩ := ih (fun e he => hnos e (List.mem_cons_of_mem _ he))
      constructor
      · show (ui_run pattern_name source_label
          (ui_cycle pattern_name source_label s ev).1 rest).1 = s
        rw [hcyc]
        exact h1
      · intro o ho
        simp only [ui_run] at ho
        rw [hcyc] at ho
        dsimp only at ho
        rcases List.mem_cons.mp ho with h | h
        · rw [h]
        · exact h2 o h
    · cases ev with
      | redraw => rfl
      | press buf errorMsg =>
        cases errorMsg with
        | some m => rfl
        | none => exact absurd hev (by simp [Event.isSuccess])

/-- Witness for C8: a concrete run of one redraw and one failed press leaves
a stored chart in place and displays it on both cycles. -/
theorem session_chart_persistence_witness :
    ((ui_run "Doji" "data.csv" (some ⟨some [55], "lbl", "f.png", true⟩)
        [Event.redraw, Event.press none (some "Pattern not found in this dataset.")]).1 =
      some ⟨some [55], "lbl", "f.png", true⟩ ∧
     ∀ o ∈ (ui_run "Doji" "data.csv" (some ⟨some [55], "lbl", "f.png", true⟩)
        [Event.redraw, Event.press none (some "Pattern not found in this dataset.")]).2,
       o.displayed = some ⟨some [55], "lbl", "f.png", true⟩) :=
  (session_chart_persistence "Doji" "data.csv").2.2
    (some ⟨some [55], "lbl", "f.png", true⟩)
    [Event.redraw, Event.press none (some "Pattern not found in this dataset.")]
    (by decide)

/-- C6: slicing a well-formed series over the full range `0..len-1` returns
it unchanged; slicing `k..k` returns exactly the `k`-th row (in the index and
in every column); and in general `start_row..end_row` returns the contiguous
inclusive sub-range, row `i` of the result being row `start_row + i` of the
original. -/
theorem range_slicing_boundary (df : DataFrame) (hwf : df.WF) (k a b : Nat)
    (hk : k < df.index.length) (hab : a ≤ b) (hb : b < df.index.length) :
    df_subset df 0 (df.index.length - 1) = df ∧
    (df_subset df k k).index = [df.index.getD k 0] ∧
    (∀ c vs, df.getCol c = some vs →
      (df_subset df k k).getCol c = some [vs.getD k (Val.str "")]) ∧
    (df_subset df a b).index.length = b - a + 1 ∧
    (∀ i, i ≤ b - a →
      (df_subset df a b).index.getD i 0 = df.index.getD (a + i) 0) ∧
    (∀ c vs, df.getCol c = some vs →
      ∃ ws, (df_subset df a b).getCol c = some ws ∧ ws.length = b - a + 1 ∧
        ∀ i, i ≤ b - a →
          ws.getD i (Val.str "") = vs.getD (a + i) (Val.str "")) := by
  refine ⟨?_, ?_, ?_, ?_, ?_, ?_⟩
  · show DataFrame.iloc df 0 (df.index.length - 1 + 1) = df
    conv_rhs => rw [show df = (⟨df.index, df.cols⟩ : DataFrame) from rfl]
    unfold DataFrame.iloc
    simp only [DataFrame.mk.injEq]
    constructor
    · rw [List.drop_zero, Nat.sub_zero]
      exact List.take_of_length_le (by omega)
    · rw [List.map_congr_left (fun p hp => ?_), List.map_id']
      rw [List.drop_zero, Nat.sub_zero]
      have := hwf p hp
      rw [List.take_of_length_le (by omega)]
  · show ((df.index.drop k).take (k + 1 - k)) = [df.index.getD k 0]
    rw [show k + 1 - k = 1 by omega]
    exact take_one_drop df.index k 0 hk
  · intro c vs hvs
    have hlen : vs.length = df.index.length := getCol_length df hwf c vs hvs
    show (DataFrame.iloc df k (k + 1)).getCol c = _
    rw [getCol_iloc, hvs]
    simp only [Option.map_some']
    rw [show k + 1 - k = 1 by omega, take_one_drop vs k (Val.str "") (by omega)]
  · show ((df.index.drop a).take (b + 1 - a)).length = b - a + 1
    rw [show b + 1 - a = b - a + 1 by omega]
    exact slice_length df.index a b hab hb
  · intro i hi
    show ((df.index.drop a).take (b + 1 - a)).getD i 0 = df.index.getD (a + i) 0
    rw [show b + 1 - a = b - a + 1 by omega]
    exact slice_getD df.index a b i 0 hab hb hi
  · intro c vs hvs
    have hlen : vs.length = df.index.length := getCol_length df hwf c vs hvs
    refine ⟨(vs.drop a).take (b - a + 1), ?_, ?_, ?_⟩
    · show (DataFrame.iloc df a (b + 1)).getCol c = _
      rw [getCol_iloc, hvs]
      simp only [Option.map_some']
      rw [show b + 1 - a = b - a + 1 by omega]
    · exact slice_length vs a b hab (by omega)
    · intro i hi
      exact slice_getD vs a b i (Val.str "") hab (by omega) hi

/-- Witness for C6: the slicing facts instantiated on a concrete two-row
frame with `k = 1`, `start_row = 0`, `end_row = 1`. -/
theorem range_slicing_boundary_witness :
    df_subset wDf 0 (wDf.index.length - 1) = wDf ∧
    (df_subset wDf 1 1).index = [wDf.index.getD 1 0] ∧
    (∀ c vs, wDf.getCol c = some vs →
      (df_subset wDf 1 1).getCol c = some [vs.getD 1 (Val.str "")]) ∧
    (df_subset wDf 0 1).index.length = 1 - 0 + 1 ∧
    (∀ i, i ≤ 1 - 0 →
      (df_subset wDf 0 1).index.getD i 0 = wDf.index.getD (0 + i) 0) ∧
    (∀ c vs, wDf.getCol c = some vs →
      ∃ ws, (df_subset wDf 0 1).getCol c = some ws ∧ ws.length = 1 - 0 + 1 ∧
        ∀ i, i ≤ 1 - 0 →
          ws.getD i (Val.str "") = vs.getD (0 + i) (Val.str "")) :=
  range_slicing_boundary wDf (by unfold DataFrame.WF; decide) 1 0 1
    (by decide) (by decide) (by decide)

/-- C4: on a well-formed table — `timestamp` present with every cell
day-first parseable, the five OHLCV columns present with float-coercible
cells — `load_ohlcv_data` succeeds with exactly one row per data row, keyed
by the day-first-parsed timestamps in input order (no re-sort, so the index
is strictly ascending exactly when the parsed source order already was), and
the five OHLCV columns hold the parsed floats. -/
theorem load_roundtrip_schema (t : RawTable) (tsRaw : List String)
    (keys : List Nat)
    (hts : getRawCol t "timestamp" = some tsRaw)
    (hkeys : traverseO parseDateDayFirst tsRaw = some keys)
    (hnum : ∀ c ∈ numeric_cols, c ∈ t.header)
    (hcoerce : ∀ c ∈ numeric_cols, ∀ raw, getRawCol t c = some raw →
      ∃ qs, traverseO parseFloatStr raw = some qs) :
    ∃ df, load_ohlcv_data t = Except.ok df ∧
      df.index = keys ∧
      df.index.length = t.rows.length ∧
      (∀ c ∈ numeric_cols, ∃ raw qs, getRawCol t c = some raw ∧
        traverseO parseFloatStr raw = some qs ∧
        df.getCol c = some (qs.map Val.num)) ∧
      (List.Chain' (fun x y => x < y) df.index ↔
        List.Chain' (fun x y => x < y) keys) := by
  have hne : ∀ c ∈ numeric_cols, ¬ c = "timestamp" := by decide
  have hall : ∀ c ∈ t.header.filter (fun c => ¬ c = "timestamp"),
      ∃ raw vs, getRawCol t c = some raw ∧ coerceCol c raw = Except.ok vs := by
    intro c hc
    have hch : c ∈ t.header := (List.mem_filter.mp hc).1
    obtain ⟨raw, hraw⟩ := getRawCol_isSome t c hch
    by_cases hcn : c ∈ numeric_cols
    · obtain ⟨qs, hqs⟩ := hcoerce c hcn raw hraw
      refine ⟨raw, qs.map Val.num, hraw, ?_⟩
      unfold coerceCol
      rw [if_pos hcn]
      simp only [hqs]
    · refine ⟨raw, raw.map Val.str, hraw, ?_⟩
      unfold coerceCol
      rw [if_neg hcn]
  obtain ⟨cols, hcols⟩ := buildCols_ok t _ hall
  have hload : load_ohlcv_data t = Except.ok ⟨keys, cols⟩ := by
    unfold load_ohlcv_data
    simp only [hts, hkeys]
    rw [if_pos hnum]
    simp only [hcols]
  refine ⟨⟨keys, cols⟩, hload, rfl, ?_, ?_, Iff.rfl⟩
  · have h1 := traverseO_length _ tsRaw keys hkeys
    have h2 := getRawCol_length t "timestamp" tsRaw hts
    dsimp only
    omega
  · intro c hc
    have hch : c ∈ t.header := hnum c hc
    have hcf : c ∈ t.header.filter (fun c => ¬ c = "timestamp") := by
      rw [List.mem_filter]
      exact ⟨hch, by simpa using hne c hc⟩
    obtain ⟨raw, vs, hraw, hco, hget⟩ := buildCols_getCol t _ cols keys hcols c hcf
    obtain ⟨qs, hqs⟩ := hcoerce c hc raw hraw
    have hvs : vs = qs.map Val.num := by
      unfold coerceCol at hco
      rw [if_pos hc] at hco
      simp only [hqs, Except.ok.injEq] at hco
      exact hco.symm
    exact ⟨raw, qs, hraw, hqs, by rw [← hvs]; exact hget⟩

/-- Witness for C4 on a concrete two-row table whose source dates are in
ascending order. -/
theorem load_roundtrip_schema_witness :
    ∃ df, load_ohlcv_data wTable = Except.ok df ∧
      df.index = [1034273, 1034274] ∧
      df.index.length = wTable.rows.length ∧
      (∀ c ∈ numeric_cols, ∃ raw qs, getRawCol wTable c = some raw ∧
        traverseO parseFloatStr raw = some qs ∧
        df.getCol c = some (qs.map Val.num)) ∧
      (List.Chain' (fun x y => x < y) df.index ↔
        List.Chain' (fun x y => x < y) ([1034273, 1034274] : List Nat)) :=
  load_roundtrip_schema wTable ["01/01/2020", "02/01/2020"] [1034273, 1034274]
    (by decide) (by decide) (by decide)
    (by
      intro c hc raw hraw
      fin_cases hc
      · rw [show getRawCol wTable "open" = some ["1", "2"] from rfl] at hraw
        cases hraw
        exact ⟨[((1 : Nat) : ℚ), ((2 : Nat) : ℚ)], rfl⟩
      · rw [show getRawCol wTable "high" = some ["2", "3"] from rfl] at hraw
        cases hraw
        exact ⟨[((2 : Nat) : ℚ), ((3 : Nat) : ℚ)], rfl⟩
      · rw [show getRawCol wTable "low" = some ["1", "1"] from rfl] at hraw
        cases hraw
        exact ⟨[((1 : Nat) : ℚ), ((1 : Nat) : ℚ)], rfl⟩
      · rw [show getRawCol wTable "close" = some ["2", "3"] from rfl] at hraw
        cases hraw
        exact ⟨[((2 : Nat) : ℚ), ((3 : Nat) : ℚ)], rfl⟩
      · rw [show getRawCol wTable "volume" = some ["100", "200"] from rfl] at hraw
        cases hraw
        exact ⟨[((100 : Nat) : ℚ), ((200 : Nat) : ℚ)], rfl⟩)

/-- C5: a table missing any of the required columns, or containing a
timestamp cell or a numeric cell that cannot be coerced, makes
`load_ohlcv_data` fail with a parse error — no frame is returned. -/
theorem load_failure (t : RawTable)
    (h : "timestamp" ∉ t.header ∨
      (∃ tsRaw, getRawCol t "timestamp" = some tsRaw ∧
        traverseO parseDateDayFirst tsRaw = none) ∨
      (∃ c, c ∈ numeric_cols ∧ c ∉ t.header) ∨
      (∃ c raw, c ∈ numeric_cols ∧ getRawCol t c = some raw ∧
        traverseO parseFloatStr raw = none)) :
    ∃ msg, load_ohlcv_data t = Except.error msg := by
  unfold load_ohlcv_data
  cases hts : getRawCol t "timestamp" with
  | none => exact ⟨"KeyError: timestamp", rfl⟩
  | some tsRaw =>
    dsimp only
    cases hkeys : traverseO parseDateDayFirst tsRaw with
    | none => exact ⟨"ValueError: could not parse timestamp", rfl⟩
    | some keys =>
      dsimp only
      by_cases hnum : ∀ c ∈ numeric_cols, c ∈ t.header
      · rcases h with h1 | ⟨tsRaw', hts', hkeys'⟩ | ⟨c, hc, hch⟩ |
          ⟨c, raw, hc, hraw, hqs⟩
        · rw [(getRawCol_eq_none_iff t "timestamp").mpr h1] at hts
          exact Option.noConfusion hts
        · rw [hts] at hts'
          cases hts'
          rw [hkeys] at hkeys'
          exact Option.noConfusion hkeys'
        · exact absurd (hnum c hc) hch
        · have hne : ∀ c ∈ numeric_cols, ¬ c = "timestamp" := by decide
          have herr : coerceCol c raw = Except.error
              ("ValueError: could not convert string to float in " ++ c) := by
            unfold coerceCol
            rw [if_pos hc]
            simp only [hqs]
          have hcf : c ∈ t.header.filter (fun x => ¬ x = "timestamp") := by
            rw [List.mem_filter]
            exact ⟨hnum c hc, by simpa using hne c hc⟩
          obtain ⟨msg, hmsg⟩ := buildCols_error t _ c hcf raw hraw _ herr
          refine ⟨msg, ?_⟩
          rw [if_pos hnum]
          simp only [hmsg]
      · exact ⟨"KeyError: missing OHLCV column", by rw [if_neg hnum]⟩

/-- Witness for C5: a concrete table missing the `volume` column fails to
load. -/
theorem load_failure_witness :
    ∃ msg, load_ohlcv_data wTableNoVolume = Except.error msg :=
  load_failure wTableNoVolume
    (Or.inr (Or.inr (Or.inl ⟨"volume", by decide, by decide⟩)))

end CandlePD
